import Mathlib

set_option maxHeartbeats 1000000

/-!
Shallow embedding of the java-path repository's core: the installation
scanner (`src/services/installations.ts`), the file-integrity checker
(`src/utils/file.ts`), and the release catalog / acquisition service
(`src/services/java-info.service.ts`).  Paths are lists of components,
directory trees are explicit inductive values, and the remote registry is
passed in as data, so every function of the source becomes a total,
executable Lean function.
-/

/-- Lowercased character list of a string, modelling JS `toLowerCase()` on
ASCII folder names. -/
def lowerChars (s : String) : List Char := s.toList.map Char.toLower

/-- Value of a digit string, modelling `parseInt(match, 10)` on a `\d+`
capture. -/
def parseDigits (ds : List Char) : Nat :=
  ds.foldl (fun n c => n * 10 + (c.toNat - 48)) 0

/-- Substring test on character lists, modelling JS `String.includes`. -/
def containsSub : List Char → List Char → Bool
  | s@(_ :: rest), pat => pat.isPrefixOf s || containsSub rest pat
  | [], pat => pat.isEmpty

/-- Match of the regex `jdk-?(\d+)(?:u\d+)?(?:\.[\d.]+)?(?:\+\d+)?` anchored at
the head of an (already lowercased) character list; returns the first capture
group.  The trailing groups of the regex are all optional and cannot shrink the
greedy `(\d+)` capture, so they do not appear. -/
def jdkHere : List Char → Option Nat
  | 'j' :: 'd' :: 'k' :: rest =>
    let rest2 := match rest with
      | '-' :: r => r
      | r => r
    let ds := rest2.takeWhile Char.isDigit
    if ds.isEmpty then none else some (parseDigits ds)
  | _ => none

/-- Match of the regex `openjdk-?(\d+)` anchored at the head. -/
def openjdkHere : List Char → Option Nat
  | 'o' :: 'p' :: 'e' :: 'n' :: 'j' :: 'd' :: 'k' :: rest =>
    let rest2 := match rest with
      | '-' :: r => r
      | r => r
    let ds := rest2.takeWhile Char.isDigit
    if ds.isEmpty then none else some (parseDigits ds)
  | _ => none

/-- Match of the regex `java-(\d+)-` anchored at the head.  The greedy `(\d+)`
must be followed by a literal `-`; a shorter capture would end on a digit, so
only the maximal digit run can be followed by the dash. -/
def javaHere : List Char → Option Nat
  | 'j' :: 'a' :: 'v' :: 'a' :: '-' :: rest =>
    let ds := rest.takeWhile Char.isDigit
    if ds.isEmpty then none
    else match rest.drop ds.length with
      | '-' :: _ => some (parseDigits ds)
      | _ => none
  | _ => none

/-- Leftmost-match search of an unanchored regex: try the head matcher at every
suffix, leftmost start wins, exactly as the JS regex engine does. -/
def scanMatch (p : List Char → Option Nat) : List Char → Option Nat
  | [] => p []
  | c :: rest =>
    match p (c :: rest) with
    | some n => some n
    | none => scanMatch p rest

/-- Pattern `/jdk-?(\d+)(?:u\d+)?(?:\.[\d.]+)?(?:\+\d+)?/i` of
`extractJavaVersion`. -/
def jdkPattern (name : String) : Option Nat := scanMatch jdkHere (lowerChars name)

/-- Pattern `/^(\d+)_/` of `extractJavaVersion` (case sensitivity is moot:
digits and underscore are unaffected by case). -/
def leadingNumPattern (name : String) : Option Nat :=
  let s := name.toList
  let ds := s.takeWhile Char.isDigit
  if ds.isEmpty then none
  else match s.drop ds.length with
    | '_' :: _ => some (parseDigits ds)
    | _ => none

/-- Pattern `java-(\d+)-` (case-insensitive) of `extractJavaVersion`. -/
def javaDashPattern (name : String) : Option Nat := scanMatch javaHere (lowerChars name)

/-- Pattern `/openjdk-?(\d+)/i` of `extractJavaVersion`. -/
def openjdkPattern (name : String) : Option Nat := scanMatch openjdkHere (lowerChars name)

/-- Pattern `/^(\d+)$/` of `extractJavaVersion`. -/
def bareNumberPattern (name : String) : Option Nat :=
  let s := name.toList
  if s.isEmpty then none
  else if s.all Char.isDigit then some (parseDigits s) else none

/-- The ordered pattern list of `extractJavaVersion` in
`src/services/installations.ts`. -/
def jvPatterns : List (String → Option Nat) :=
  [jdkPattern, leadingNumPattern, javaDashPattern, openjdkPattern, bareNumberPattern]

/-- `extractJavaVersion(folderName)`: the patterns are tried in order and the
first match returns its parsed capture; `none` models the `null` return. -/
def extractJavaVersion (folderName : String) : Option Nat :=
  jvPatterns.findSome? (fun p => p folderName)

example : extractJavaVersion "jdk-8u452+09" = some 8 := by decide
example : extractJavaVersion "jdk-11.0.2" = some 11 := by decide
example : extractJavaVersion "jdk-17.0.2+8" = some 17 := by decide
example : extractJavaVersion "8_x86_64_windows" = some 8 := by decide
example : extractJavaVersion "java-11-openjdk" = some 11 := by decide
example : extractJavaVersion "openjdk-17" = some 17 := by decide
example : extractJavaVersion "not-a-java-dir" = none := by decide

/-- Case-insensitive substring test on a folder name, modelling
`folderName.toLowerCase().includes(pat)` with a lowercase literal `pat`. -/
def nameIncludes (folderName : String) (pat : String) : Bool :=
  containsSub (lowerChars folderName) pat.toList

/-- The host environment value read by the scanner from the `env` object of
`src/platforms/env.ts`: `arch` is `env.arch` (`getArchitecture()`),
`platformName` is `env.platform.name` (`getPlatform().name`), and
`isWindowsHost` is `env.isWindows()`.  `mkEnv` below constructs it from the
Node `process.platform` / `process.arch` identifiers exactly as that module
does. -/
structure Env where
  arch : String
  platformName : String
  isWindowsHost : Bool
deriving Repr, DecidableEq

/-- `ADOPTIUM_OS_MAP` of `src/constants.ts`, keyed by `process.platform`;
note that `android` maps to `linux`. -/
def ADOPTIUM_OS_MAP (p : String) : Option String :=
  if p = "win32" then some "windows"
  else if p = "linux" then some "linux"
  else if p = "darwin" then some "mac"
  else if p = "android" then some "linux"
  else none

/-- `SYSTEM_ARCH_MAP` of `src/constants.ts`, keyed by `process.arch`. -/
def SYSTEM_ARCH_MAP (a : String) : Option String :=
  if a = "arm" then some "arm"
  else if a = "arm64" then some "aarch64"
  else if a = "x64" then some "x86_64"
  else none

/-- Construction of the environment from the Node `process.platform` and
`process.arch` identifiers, following `src/platforms/env.ts`: `PLATFORM_MAP`
assigns `name = ADOPTIUM_OS_MAP[process.platform]` to the four mapped
platforms and `getPlatform` throws on any other (`none` here);
`getArchitecture` returns `SYSTEM_ARCH_MAP[process.arch]` and throws on
unmapped architectures; `isWindows()` compares `process.platform` with
`win32`. -/
def mkEnv (processPlatform processArch : String) : Option Env :=
  match ADOPTIUM_OS_MAP processPlatform, SYSTEM_ARCH_MAP processArch with
  | some name, some arch =>
    some { arch := arch, platformName := name,
           isWindowsHost := processPlatform = "win32" }
  | _, _ => none

/-- `extractArchAndOS(folderName)` of `src/services/installations.ts`:
substring heuristics on the lowercased folder name, falling back to the current
environment's values. -/
def extractArchAndOS (e : Env) (folderName : String) : String × String :=
  let inc := nameIncludes folderName
  let arch :=
    if inc "x64" || inc "x86_64" then "x86_64"
    else if inc "x32" || inc "x86" then "x86"
    else if inc "aarch64" || inc "arm64" then "aarch64"
    else if inc "arm" then "arm"
    else e.arch
  let os :=
    if inc "windows" || inc "win" then "windows"
    else if inc "linux" then "linux"
    else if inc "mac" || inc "darwin" then "macos"
    else if inc "android" then "android"
    else e.platformName
  (arch, os)

/-- The platform's java executable file name (`java.exe` on Windows, `java`
elsewhere). -/
def javaExeName (e : Env) : String := if e.isWindowsHost then "java.exe" else "java"

/-- A filesystem path as its list of components; `path.dirname` is `dropLast`
and `path.basename` is the last component. -/
abbrev FsPath := List String

/-- Basename of a path (`path.basename`); the empty string for the root. -/
def lastName (p : FsPath) : String := p.getLast?.getD ""

/-- A node of the scanned directory tree.  A directory carries a `readable`
flag: `false` models `fs.readdir` throwing on it (the scanner catches the error
and skips the subtree). -/
inductive FsEntry where
  | file (name : String)
  | dir (name : String) (readable : Bool) (children : List FsEntry)
deriving Repr

/-- Name of a tree node. -/
def entryName : FsEntry → String
  | .file n => n
  | .dir n _ _ => n

/-- Test for a hidden entry, modelling `entry.name.startsWith('.')`. -/
def startsWithDot (name : String) : Bool :=
  match name.toList with
  | '.' :: _ => true
  | _ => false

/-- The state of the scanned root directory: whether the base path exists
(`FileUtils.pathExists`), whether `fs.readdir(basePath)` succeeds, and its
entries. -/
structure Fs where
  rootExists : Bool
  rootReadable : Bool
  entries : List FsEntry
deriving Repr

/-- `InstalledJavaVersion` of `src/services/installations.ts`. -/
structure InstalledJavaVersion where
  featureVersion : Nat
  folderName : String
  installPath : FsPath
  binPath : FsPath
  javaExecutable : FsPath
  arch : String
  os : String
  isValid : Bool
deriving Repr, DecidableEq

mutual
/-- `findExecutables` restricted to one tree node: regular files named exactly
like the platform executable are reported; hidden directories are skipped;
a directory whose `readdir` fails contributes nothing (the error is caught). -/
def findExecsEntry (e : Env) (cur : FsPath) : FsEntry → List FsPath
  | .file name => if name = javaExeName e then [cur ++ [name]] else []
  | .dir name readable children =>
    if startsWithDot name then []
    else if readable then findExecsList e (cur ++ [name]) children
    else []
termination_by structural t => t
/-- `findExecutables` over a directory listing, in listing order. -/
def findExecsList (e : Env) (cur : FsPath) : List FsEntry → List FsPath
  | [] => []
  | x :: xs => findExecsEntry e cur x ++ findExecsList e cur xs
termination_by structural l => l
end

mutual
/-- `findDirectories` restricted to one tree node: every non-hidden directory
is reported before its descendants; descendants of an unreadable directory are
not reported (the recursive `readdir` error is caught). -/
def findDirsEntry (cur : FsPath) : FsEntry → List FsPath
  | .file _ => []
  | .dir name readable children =>
    if startsWithDot name then []
    else (cur ++ [name]) :: (if readable then findDirsList (cur ++ [name]) children else [])
termination_by structural t => t
/-- `findDirectories` over a directory listing, in listing order. -/
def findDirsList (cur : FsPath) : List FsEntry → List FsPath
  | [] => []
  | x :: xs => findDirsEntry cur x ++ findDirsList cur xs
termination_by structural l => l
end

/-- Strip a base path from an absolute path, giving the relative component
list when the base is a prefix. -/
def stripBase : FsPath → FsPath → Option FsPath
  | [], p => some p
  | _ :: _, [] => none
  | b :: bs, c :: cs => if b = c then stripBase bs cs else none

/-- Resolve a non-empty relative path against a directory listing. -/
def resolveRel (entries : List FsEntry) : List String → Option FsEntry
  | [] => none
  | [n] => entries.find? (fun x => entryName x = n)
  | n :: rest =>
    match entries.find? (fun x => entryName x = n) with
    | some (.dir _ _ children) => resolveRel children rest
    | _ => none

/-- `fs.stat(p).isDirectory()` against the modelled tree. -/
def isDirAt (base : FsPath) (fs : Fs) (p : FsPath) : Bool :=
  match stripBase base p with
  | some rel =>
    match resolveRel fs.entries rel with
    | some (.dir _ _ _) => true
    | _ => false
  | none => false

/-- `fs.access(p)` succeeding against the modelled tree. -/
def existsAt (base : FsPath) (fs : Fs) (p : FsPath) : Bool :=
  match stripBase base p with
  | some rel => (resolveRel fs.entries rel).isSome
  | none => false

/-- Key membership in the `homes` map (a JS `Map` keyed by `installPath`,
modelled as an insertion-ordered association list). -/
def hasKey (homes : List (FsPath × InstalledJavaVersion)) (p : FsPath) : Bool :=
  homes.any (fun h => h.1 = p)

/-- `homes.set(p, r)` guarded by the scanner's `homes.has(p)` check: insert
only when the key is absent, preserving insertion order. -/
def addHome (homes : List (FsPath × InstalledJavaVersion)) (p : FsPath)
    (r : InstalledJavaVersion) : List (FsPath × InstalledJavaVersion) :=
  if hasKey homes p then homes else homes ++ [(p, r)]

/-- The scanner's walk up to three ancestor levels looking for a folder name
with a version (covers nested layouts such as `Contents/Home/bin`). -/
def walkUp : FsPath → Nat → Option (Nat × String × FsPath)
  | _, 0 => none
  | cand, k + 1 =>
    let c := cand.dropLast
    match extractJavaVersion (lastName c) with
    | some v => some (v, lastName c, c)
    | none => walkUp c k

/-- Version, folder name and install path derived from one executable path:
the grandparent of the executable, or — when its name carries no version — the
first of up to three further ancestors whose name does. -/
def execTarget (execPath : FsPath) : Option (Nat × String × FsPath) :=
  let installPath0 := execPath.dropLast.dropLast
  match extractJavaVersion (lastName installPath0) with
  | some v => some (v, lastName installPath0, installPath0)
  | none => walkUp installPath0 3

/-- First-pass body of `scanJavaInstallations` for one discovered executable:
derive bin and install paths, extract the version (walking up on failure),
and record the installation keyed by install path, first occurrence winning. -/
def processExec (e : Env) (homes : List (FsPath × InstalledJavaVersion))
    (execPath : FsPath) : List (FsPath × InstalledJavaVersion) :=
  match execTarget execPath with
  | none => homes
  | some (v, folderName, installPath) =>
    let ao := extractArchAndOS e folderName
    addHome homes installPath
      { featureVersion := v, folderName := folderName, installPath := installPath,
        binPath := execPath.dropLast, javaExecutable := execPath, arch := ao.1,
        os := ao.2, isValid := true }

/-- Second-pass body of `scanJavaInstallations` for one discovered directory:
directories whose name carries a version but which were not found via an
executable are reported, flagged by whether the executable exists, preferring
the macOS `Contents/Home/bin` layout when that directory exists. -/
def processDir (e : Env) (base : FsPath) (fs : Fs)
    (homes : List (FsPath × InstalledJavaVersion)) (dir : FsPath) :
    List (FsPath × InstalledJavaVersion) :=
  match extractJavaVersion (lastName dir) with
  | none => homes
  | some v =>
    if hasKey homes dir then homes
    else
      let folderName := lastName dir
      let standardBin := dir ++ ["bin"]
      let macBin := dir ++ ["Contents", "Home", "bin"]
      let binPath := if isDirAt base fs macBin then macBin else standardBin
      let javaExecutable := binPath ++ [javaExeName e]
      let valid := existsAt base fs javaExecutable
      let ao := extractArchAndOS e folderName
      addHome homes dir
        { featureVersion := v, folderName := folderName, installPath := dir,
          binPath := binPath, javaExecutable := javaExecutable, arch := ao.1,
          os := ao.2, isValid := valid }

/-- The ordering produced by the comparator
`(a, b) => b.featureVersion - a.featureVersion` handed to
`Array.prototype.sort`: `a` may come before `b` exactly when
`b.featureVersion ≤ a.featureVersion`. -/
def versionDesc (a b : InstalledJavaVersion) : Prop :=
  b.featureVersion ≤ a.featureVersion

instance : DecidableRel versionDesc :=
  fun a b => Nat.decLe b.featureVersion a.featureVersion

instance : IsTotal InstalledJavaVersion versionDesc :=
  ⟨fun a b => Nat.le_total b.featureVersion a.featureVersion⟩

instance : IsTrans InstalledJavaVersion versionDesc :=
  ⟨fun _ _ _ hab hbc => Nat.le_trans hbc hab⟩

/-- The `homes` map built by `scanJavaInstallations`: the executable pass over
all discovered executables, then the directory-only pass over all discovered
directories (both passes see no entries when the root is unreadable, since the
caught `readdir` failure yields no executables and no directories). -/
def scanHomes (e : Env) (base : FsPath) (fs : Fs) :
    List (FsPath × InstalledJavaVersion) :=
  let execs := if fs.rootReadable then findExecsList e base fs.entries else []
  let dirs := if fs.rootReadable then findDirsList base fs.entries else []
  dirs.foldl (processDir e base fs) (execs.foldl (processExec e) [])

/-- `scanJavaInstallations(basePath)`: empty result when the base path does
not exist; otherwise the two passes of `scanHomes` followed by a stable sort
of the map's values by `featureVersion` descending.  JS `Array.prototype.sort`
is stable, and a stable sort with respect to a fixed total preorder has a
unique result, so the stable `insertionSort` is an exact model of it. -/
def scanJavaInstallations (e : Env) (base : FsPath) (fs : Fs) :
    List InstalledJavaVersion :=
  if fs.rootExists = false then []
  else ((scanHomes e base fs).map Prod.snd).insertionSort versionDesc

/-- The option object of `findJavaVersion`; a `none` field models an omitted
property. -/
structure FindOptions where
  requireSameArch : Option Bool := none
  requireSameOS : Option Bool := none
  requireValid : Option Bool := none
deriving Repr, DecidableEq

/-- `findJavaVersion(basePath, targetVersion, options)`: scan, then return the
first record passing the version check and the enabled filters.  Each filter
defaults to `true` when its option is omitted. -/
def findJavaVersion (e : Env) (base : FsPath) (fs : Fs) (targetVersion : Nat)
    (options : FindOptions) : Option InstalledJavaVersion :=
  let requireSameArch := options.requireSameArch.getD true
  let requireSameOS := options.requireSameOS.getD true
  let requireValid := options.requireValid.getD true
  (scanJavaInstallations e base fs).find? (fun java =>
    java.featureVersion = targetVersion
    && (!requireValid || java.isValid)
    && (!requireSameArch || java.arch = e.arch)
    && (!requireSameOS || java.os = e.platformName))

/-- A sample non-Windows x86-64 Linux environment used by concrete scenarios. -/
def envLinux : Env := { arch := "x86_64", platformName := "linux", isWindowsHost := false }

/-- Lowercasing of a whole string, modelling `String.prototype.toLowerCase`
on the ASCII hex digests compared by `_verifyFileIntegrity`. -/
def lowerStr (s : String) : String := String.mk (lowerChars s)

/-- `_verifyFileIntegrity(filePath, expectedSize, expectedChecksum)` of
`src/utils/file.ts`.  The file on disk is `none` when `fs.stat` throws, or the
byte list of its contents; `hashHex` abstracts
`createHash("sha256").update(buffer).digest("hex")`, so the checksum branch
never fixes a concrete digest algorithm.  The size check runs first and
returns `false` without consulting `hashHex`; the checksum is compared
case-insensitively and, per JS truthiness of `if (expectedChecksum)`, an
absent or empty checksum string skips the comparison. -/
def verifyFileIntegrity (hashHex : List Nat → String) (file : Option (List Nat))
    (expectedSize : Nat) (expectedChecksum : Option String) : Bool :=
  match file with
  | none => false
  | some bytes =>
    if bytes.length ≠ expectedSize then false
    else
      match expectedChecksum with
      | none => true
      | some c =>
        if c = "" then true
        else lowerStr (hashHex bytes) = lowerStr c

/-- `JavaRelease` of `src/services/java-info.service.ts` (the `checksumUrl`
field holds the actual checksum string published by the registry). -/
structure JavaRelease where
  featureVersion : Nat
  releaseName : String
  downloadUrl : String
  checksumUrl : String
  size : Nat
  arch : String
  os : String
deriving Repr, DecidableEq

/-- `path.basename` applied to a download URL: the last non-empty
slash-separated component. -/
def urlBasename (url : String) : String :=
  (((url.splitOn "/").filter (fun s => s ≠ "")).getLast?).getD url

/-- The artifact file name used by `_downloadJavaRelease`:
`fileName || path.basename(release.downloadUrl)` (JS `||`, so an empty
string falls back to the basename). -/
def downloadFileName (release : JavaRelease) (fileName : Option String) : String :=
  match fileName with
  | some s => if s = "" then urlBasename release.downloadUrl else s
  | none => urlBasename release.downloadUrl

/-- Filesystem side effects performed by the acquisition service.
`_downloadJavaRelease` can delete the artifact; `_decompressJavaRelease` hands
an archive to the task manager's `unpack`. -/
inductive FsEffect where
  | deleteFile (name : String)
  | unpack (archivePath : String) (destination : Option String)
deriving Repr, DecidableEq

/-- Settlement of the promise returned by `_downloadJavaRelease`. -/
inductive AcqResult where
  | resolved
  | rejected (msg : String)
deriving Repr, DecidableEq

/-- The continuation `_downloadJavaRelease` chains onto the task manager's
download completion: verify the artifact in the download directory against
`release.size` and `release.checksumUrl`; on failure delete it and reject with
a fixed human-readable message, on success resolve.  The download directory is
the association of file names to byte contents; the returned effect list
records what was done to the filesystem, in order. -/
def downloadVerifyStep (hashHex : List Nat → String)
    (downloadDir : List (String × List Nat)) (release : JavaRelease)
    (fileName : Option String) :
    AcqResult × List (String × List Nat) × List FsEffect :=
  let actualFileName := downloadFileName release fileName
  let file := ((downloadDir.find? (fun kv => kv.1 = actualFileName)).map Prod.snd)
  if verifyFileIntegrity hashHex file release.size (some release.checksumUrl) then
    (.resolved, downloadDir, [])
  else
    (.rejected "File verification failed: The downloaded file is incomplete or corrupted.",
     downloadDir.filter (fun kv => kv.1 ≠ actualFileName),
     [.deleteFile actualFileName])

/-- `_decompressJavaRelease(filePath, unpackPath)`: delegate extraction of the
archive to the external task manager. -/
def decompressJavaRelease (filePath : String) (unpackPath : Option String) :
    List FsEffect :=
  [.unpack filePath unpackPath]

/-- `ADOPTIUM_ARCH_MAP` of `src/constants.ts`, keyed by `process.arch`. -/
def ADOPTIUM_ARCH_MAP : String → Option String
  | "x32" => some "x32"
  | "x64" => some "x64"
  | "x86_64" => some "x64"
  | "arm64" => some "aarch64"
  | _ => none

/-- Response of `GET /info/available_releases`. -/
structure AvailResp where
  ok : Bool
  status : Nat
  available_releases : List Nat
  most_recent_lts : Nat

/-- One element of the `GET /assets/latest/...` payload, flattened to the
fields `_getJavaInstallableVersions` reads (`release_name` and
`binary.package`). -/
structure AssetEntry where
  release_name : String
  link : String
  checksum : String
  size : Nat

/-- Response of the per-version `GET /assets/latest/{feature}/hotspot`. -/
structure AssetsResp where
  ok : Bool
  payload : List AssetEntry

/-- The remote registry as data: the availability endpoint plus one assets
endpoint per feature version. -/
structure Registry where
  avail : AvailResp
  assets : Nat → AssetsResp

/-- `JavaVersionsInfo` of `src/services/java-info.service.ts`. -/
structure JavaVersionsInfo where
  available : List Nat
  lts : List Nat
  releases : List JavaRelease
  installedInfo : List InstalledJavaVersion
  installed : List Nat
deriving Repr, DecidableEq

/-- Insertion-ordered deduplication, modelling
`[...new Set([...available_releases, ...])]`. -/
def dedupFirst (l : List Nat) : List Nat :=
  l.foldl (fun acc v => if acc.contains v then acc else acc ++ [v]) []

/-- `_getJavaInstallableVersions()`: reject when `process.arch` has no
Adoptium mapping; reject with an `Adoptium API error` when the availability
endpoint is not `ok`; otherwise build one release per available feature whose
assets endpoint is `ok` with a non-empty payload, then look up each distinct
feature version locally (default `findJavaVersion` options) under the unpack
root, modelled by `base`/`fs`. -/
def getJavaInstallableVersions (reg : Registry) (processArch : String)
    (e : Env) (base : FsPath) (fs : Fs) : Except String JavaVersionsInfo :=
  match ADOPTIUM_ARCH_MAP processArch with
  | none =>
    .error ("Arch Unsupported: ADOPTIUM_ARCH_MAP[" ++ processArch ++ "] undefined")
  | some arch =>
    if reg.avail.ok = false then
      .error ("Adoptium API error: " ++ toString reg.avail.status)
    else
      let releases : List JavaRelease :=
        reg.avail.available_releases.filterMap (fun feature =>
          let res := reg.assets feature
          if res.ok = false then none
          else
            match res.payload with
            | [] => none
            | entry :: _ =>
              some { featureVersion := feature, releaseName := entry.release_name,
                     downloadUrl := entry.link, checksumUrl := entry.checksum,
                     size := entry.size, arch := arch, os := e.platformName })
      let uniqueVersions :=
        dedupFirst (reg.avail.available_releases ++ releases.map (·.featureVersion))
      let installedVersions :=
        uniqueVersions.filterMap (fun v => findJavaVersion e base fs v {})
      .ok { available := reg.avail.available_releases,
            lts := reg.avail.available_releases.filter
              (fun v => v ≤ reg.avail.most_recent_lts),
            releases := releases,
            installedInfo := installedVersions,
            installed := installedVersions.map (·.featureVersion) }

/-- `filterReleases(releases, version)`: exact `featureVersion` match, a
`none` (`false` in the source) when the version is absent. -/
def filterReleases (releases : List JavaRelease) (version : Nat) :
    Option JavaRelease :=
  releases.find? (fun r => r.featureVersion = version)

example :
    scanJavaInstallations envLinux []
      ⟨true, true, [.dir "jdk-17" true [.dir "bin" true [.file "java"]]]⟩ =
    [{ featureVersion := 17, folderName := "jdk-17", installPath := ["jdk-17"],
       binPath := ["jdk-17", "bin"], javaExecutable := ["jdk-17", "bin", "java"],
       arch := "x86_64", os := "linux", isValid := true }] := by decide


/-!
Helper lemmas shared by several claims.
-/

theorem containsSub_correct {s pat : List Char} :
    containsSub s pat = true ↔ pat <:+: s := by
  induction s with
  | nil =>
    simp [containsSub, List.isEmpty_iff]
  | cons c rest ih =>
    simp [containsSub, List.isPrefixOf_iff_prefix, ih, List.infix_cons_iff]

theorem containsSub_mono {s p q : List Char} (hpq : p <:+: q)
    (h : containsSub s q = true) : containsSub s p = true := by
  rw [containsSub_correct] at h ⊢
  exact hpq.trans h

theorem nameIncludes_mono {name : String} {p q : String}
    (hpq : p.toList <:+: q.toList) (h : nameIncludes name q = true) :
    nameIncludes name p = true :=
  containsSub_mono hpq h

/-- C4: `extractJavaVersion` applies its ordered pattern list with the first
match winning — witnessed by `java-8-jdk-11`, where the leading `jdk-` pattern
beats the later `java-<N>-` pattern — returns the claimed feature versions on
the six scenario folder names, and returns `none` (the folder is not reported)
whenever no pattern matches. -/
theorem extractJavaVersion_spec :
    extractJavaVersion "jdk-8u452+09" = some 8 ∧
    extractJavaVersion "jdk-11.0.2" = some 11 ∧
    extractJavaVersion "jdk-17.0.2+8" = some 17 ∧
    extractJavaVersion "8_x86_64_windows" = some 8 ∧
    extractJavaVersion "java-11-openjdk" = some 11 ∧
    extractJavaVersion "openjdk-17" = some 17 ∧
    (extractJavaVersion "java-8-jdk-11" = some 11 ∧
      javaDashPattern "java-8-jdk-11" = some 8) ∧
    (∀ name, (∀ p ∈ jvPatterns, p name = none) → extractJavaVersion name = none) := by
  refine ⟨by decide, by decide, by decide, by decide, by decide, by decide,
    ⟨by decide, by decide⟩, ?_⟩
  intro name h
  unfold extractJavaVersion
  exact List.findSome?_eq_none_iff.mpr h

/-- Witness for C4 at the concrete non-matching folder name `jre`. -/
theorem extractJavaVersion_spec_witness : extractJavaVersion "jre" = none :=
  extractJavaVersion_spec.2.2.2.2.2.2.2 "jre" (by decide)

/-- C2 counterexample: with an empty (but provided) expected checksum and a
matching size, `_verifyFileIntegrity` returns `true` even though the
recomputed digest does not equal the expected checksum (JS `if
(expectedChecksum)` treats the empty string as absent), so the claimed
biconditional fails at this input for any digest function — shown for one
whose digest of the empty file is `aa`, as every real sha256 hex digest is
likewise non-empty. -/
theorem verifyFileIntegrity_counterexample :
    ¬ (verifyFileIntegrity (fun _ => "aa") (some []) 0 (some "") = true ↔
       ([] : List Nat).length = 0 ∧
       lowerStr ((fun (_ : List Nat) => "aa") []) = lowerStr "") := by
  decide

/-- C2 (amended): `_verifyFileIntegrity(file, S, C)` returns `true` iff the
file exists, its size is exactly `S`, and — when `C` is provided and
non-empty — the recomputed digest equals `C` case-insensitively; a size
mismatch yields `false` for every digest function (so no hashing is needed);
and an artifact of actual size `S` and actual checksum `C` verifies. -/
theorem verifyFileIntegrity_spec (hashHex : List Nat → String)
    (file : Option (List Nat)) (S : Nat) (C : Option String) :
    (verifyFileIntegrity hashHex file S C = true ↔
      ∃ bytes, file = some bytes ∧ bytes.length = S ∧
        ∀ c, C = some c → c ≠ "" → lowerStr (hashHex bytes) = lowerStr c) ∧
    (∀ bytes, file = some bytes → bytes.length ≠ S →
      ∀ h2, verifyFileIntegrity h2 file S C = false) ∧
    (∀ bytes, verifyFileIntegrity hashHex (some bytes) bytes.length
        (some (hashHex bytes)) = true) := by
  refine ⟨?_, ?_, ?_⟩
  · cases file with
    | none => simp [verifyFileIntegrity]
    | some bytes =>
      by_cases hlen : bytes.length = S
      · cases C with
        | none => simp [verifyFileIntegrity, hlen]
        | some c =>
          by_cases hc : c = ""
          · subst hc
            simp [verifyFileIntegrity, hlen]
          · simp [verifyFileIntegrity, hlen, hc]
      · simp [verifyFileIntegrity, hlen]
  · intro bytes hf hlen h2
    subst hf
    simp [verifyFileIntegrity, hlen]
  · intro bytes
    by_cases h : hashHex bytes = "" <;> simp [verifyFileIntegrity, h]

/-- Witness for C2: a two-byte file against expected size 5 fails verification
for an arbitrary digest function. -/
theorem verifyFileIntegrity_spec_witness :
    verifyFileIntegrity (fun _ => "zz") (some [1, 2]) 5 none = false :=
  (verifyFileIntegrity_spec (fun _ => "zz") (some [1, 2]) 5 none).2.1
    [1, 2] rfl (by decide) (fun _ => "zz")

/-- C3: when the post-download integrity verification fails, the continuation
of `_downloadJavaRelease` rejects with the fixed human-readable message, the
artifact is no longer present in the download directory when the promise
settles, and the only filesystem effect is the deletion — in particular no
`unpack` (extraction) effect is ever produced on the failing path. -/
theorem downloadVerifyStep_failure (hashHex : List Nat → String)
    (downloadDir : List (String × List Nat)) (release : JavaRelease)
    (fileName : Option String)
    (hfail : verifyFileIntegrity hashHex
        ((downloadDir.find?
            (fun kv => kv.1 = downloadFileName release fileName)).map Prod.snd)
        release.size (some release.checksumUrl) = false) :
    (downloadVerifyStep hashHex downloadDir release fileName).1 =
      .rejected "File verification failed: The downloaded file is incomplete or corrupted." ∧
    ((downloadVerifyStep hashHex downloadDir release fileName).2.1.find?
        (fun kv => kv.1 = downloadFileName release fileName)) = none ∧
    (downloadVerifyStep hashHex downloadDir release fileName).2.2 =
      [.deleteFile (downloadFileName release fileName)] ∧
    (∀ p d, FsEffect.unpack p d ∉
      (downloadVerifyStep hashHex downloadDir release fileName).2.2) := by
  refine ⟨?_, ?_, ?_, ?_⟩ <;>
    simp [downloadVerifyStep, hfail, List.find?_eq_none, List.mem_filter]

/-- Witness for C3: a one-byte artifact against an expected size of 99 fails
verification and is rejected by the continuation. -/
theorem downloadVerifyStep_failure_witness :
    (downloadVerifyStep (fun _ => "d0") [("Java-17-x64.zip", [7])]
        { featureVersion := 17, releaseName := "jdk-17+8",
          downloadUrl := "https://host/path/OpenJDK17.zip", checksumUrl := "",
          size := 99, arch := "x64", os := "linux" }
        (some "Java-17-x64.zip")).1 =
      .rejected "File verification failed: The downloaded file is incomplete or corrupted." :=
  (downloadVerifyStep_failure (fun _ => "d0") [("Java-17-x64.zip", [7])]
    { featureVersion := 17, releaseName := "jdk-17+8",
      downloadUrl := "https://host/path/OpenJDK17.zip", checksumUrl := "",
      size := 99, arch := "x64", os := "linux" }
    (some "Java-17-x64.zip") (by decide)).1

/-- C9: the scanner is a pure function of the directory state, so two scans of
an unmodified tree return deep-equal lists (same records, same order). -/
theorem scanJavaInstallations_deterministic (e : Env) (base : FsPath)
    (fs1 fs2 : Fs) (h : fs1 = fs2) :
    scanJavaInstallations e base fs1 = scanJavaInstallations e base fs2 := by
  rw [h]

/-- Witness for C9 at a concrete directory tree. -/
theorem scanJavaInstallations_deterministic_witness :
    scanJavaInstallations envLinux []
        ⟨true, true, [.dir "jdk-17" true [.dir "bin" true [.file "java"]]]⟩ =
      scanJavaInstallations envLinux []
        ⟨true, true, [.dir "jdk-17" true [.dir "bin" true [.file "java"]]]⟩ :=
  scanJavaInstallations_deterministic envLinux [] _ _ rfl

/-- Invariant of the `homes` map: keys are pairwise distinct and every stored
record's `installPath` is its key. -/
def homesInv (homes : List (FsPath × InstalledJavaVersion)) : Prop :=
  (homes.map Prod.fst).Nodup ∧ ∀ h ∈ homes, h.2.installPath = h.1

theorem homesInv_nil : homesInv [] := by
  constructor
  · exact List.nodup_nil
  · intro h hh
    cases hh

theorem homesInv_addHome {homes : List (FsPath × InstalledJavaVersion)}
    {p : FsPath} {r : InstalledJavaVersion} (hinv : homesInv homes)
    (hr : r.installPath = p) : homesInv (addHome homes p r) := by
  unfold addHome
  split
  · exact hinv
  · rename_i hk
    have hk' : ∀ x ∈ homes, x.1 ≠ p := by
      intro x hx
      simp only [hasKey, Bool.not_eq_true, List.any_eq_false] at hk
      simpa using hk x hx
    constructor
    · rw [List.map_append]
      rw [List.nodup_append]
      refine ⟨hinv.1, by simp, ?_⟩
      intro a ha hb
      simp at hb
      subst hb
      rcases List.mem_map.mp ha with ⟨x, hx, hxa⟩
      exact hk' x hx hxa
    · intro h hh
      rcases List.mem_append.mp hh with hmem | hmem
      · exact hinv.2 h hmem
      · simp at hmem
        subst hmem
        exact hr

theorem homesInv_processExec (e : Env)
    (homes : List (FsPath × InstalledJavaVersion)) (execPath : FsPath)
    (hinv : homesInv homes) : homesInv (processExec e homes execPath) := by
  unfold processExec
  split
  · exact hinv
  · exact homesInv_addHome hinv rfl

theorem homesInv_processDir (e : Env) (base : FsPath) (fs : Fs)
    (homes : List (FsPath × InstalledJavaVersion)) (dir : FsPath)
    (hinv : homesInv homes) : homesInv (processDir e base fs homes dir) := by
  unfold processDir
  split
  · exact hinv
  · split
    · exact hinv
    · exact homesInv_addHome hinv rfl

theorem homesInv_foldl {β : Type}
    (step : List (FsPath × InstalledJavaVersion) → β →
      List (FsPath × InstalledJavaVersion))
    (hstep : ∀ homes x, homesInv homes → homesInv (step homes x)) :
    ∀ (l : List β) (homes : List (FsPath × InstalledJavaVersion)),
      homesInv homes → homesInv (l.foldl step homes) := by
  intro l
  induction l with
  | nil => intro homes h; exact h
  | cons x xs ih =>
    intro homes h
    exact ih (step homes x) (hstep homes x h)

theorem homesInv_scanHomes (e : Env) (base : FsPath) (fs : Fs) :
    homesInv (scanHomes e base fs) := by
  unfold scanHomes
  apply homesInv_foldl (processDir e base fs)
    (fun homes x => homesInv_processDir e base fs homes x)
  apply homesInv_foldl (processExec e)
    (fun homes x => homesInv_processExec e homes x)
  exact homesInv_nil

/-- Sample filesystem for the collapse scenario of C5: two java executables
(`jdk-17/bin/java` directly, and `jdk-17/jre/bin/java` via the ancestor walk)
resolve to the same version root `jdk-17`. -/
def fsTwoExecs : Fs :=
  ⟨true, true, [.dir "jdk-17" true
    [.dir "bin" true [.file "java"],
     .dir "jre" true [.dir "bin" true [.file "java"]]]]⟩

/-- C5: every scan result has pairwise-distinct `installPath`s (exactly one
record per distinct version root) and is sorted by `featureVersion`
descending; concretely, two executables resolving to the same version root
collapse into the single first-found record. -/
theorem scanJavaInstallations_dedup_sorted :
    (∀ e base fs,
      (((scanJavaInstallations e base fs).map (·.installPath)).Nodup ∧
        (scanJavaInstallations e base fs).Pairwise versionDesc)) ∧
    scanJavaInstallations envLinux [] fsTwoExecs =
      [{ featureVersion := 17, folderName := "jdk-17", installPath := ["jdk-17"],
         binPath := ["jdk-17", "bin"],
         javaExecutable := ["jdk-17", "bin", "java"],
         arch := "x86_64", os := "linux", isValid := true }] := by
  constructor
  · intro e base fs
    unfold scanJavaInstallations
    split
    · constructor
      · exact List.nodup_nil
      · exact List.Pairwise.nil
    · constructor
      · have hperm :
            (((scanHomes e base fs).map Prod.snd).insertionSort versionDesc).Perm
              ((scanHomes e base fs).map Prod.snd) :=
          List.perm_insertionSort versionDesc _
        have hmapperm := hperm.map (·.installPath)
        apply hmapperm.symm.nodup
        rw [List.map_map]
        have hcongr :
            ((scanHomes e base fs).map ((·.installPath) ∘ Prod.snd)) =
              ((scanHomes e base fs).map Prod.fst) := by
          apply List.map_congr_left
          intro h hh
          exact (homesInv_scanHomes e base fs).2 h hh
        rw [hcongr]
        exact (homesInv_scanHomes e base fs).1
      · exact List.sorted_insertionSort versionDesc _
  · decide


/-- Sample filesystem for C7: a readable installation next to a subdirectory
whose `readdir` fails and which hides another installation. -/
def fsUnreadableSub : Fs :=
  ⟨true, true,
    [.dir "jdk-17" true [.dir "bin" true [.file "java"]],
     .dir "vault" false [.dir "jdk-11" true [.dir "bin" true [.file "java"]]]]⟩

/-- C7: the scanner always returns a list — an empty one when the base path
does not exist or its `readdir` fails — and a read failure on an individual
subdirectory only skips that subtree: concretely, the installation hidden
inside the unreadable `vault` is dropped while the readable sibling `jdk-17`
is still reported. -/
theorem scanJavaInstallations_error_handling :
    (∀ e base fs, fs.rootExists = false → scanJavaInstallations e base fs = []) ∧
    (∀ e base fs, fs.rootReadable = false → scanJavaInstallations e base fs = []) ∧
    scanJavaInstallations envLinux [] fsUnreadableSub =
      [{ featureVersion := 17, folderName := "jdk-17", installPath := ["jdk-17"],
         binPath := ["jdk-17", "bin"],
         javaExecutable := ["jdk-17", "bin", "java"],
         arch := "x86_64", os := "linux", isValid := true }] := by
  refine ⟨?_, ?_, ?_⟩
  · intro e base fs h
    simp [scanJavaInstallations, h]
  · intro e base fs h
    cases hE : fs.rootExists
    · simp [scanJavaInstallations, hE]
    · simp [scanJavaInstallations, scanHomes, hE, h]
  · decide

/-- Witness for C7 at a concrete missing base path. -/
theorem scanJavaInstallations_error_handling_witness :
    scanJavaInstallations envLinux [] ⟨false, true, []⟩ = [] :=
  scanJavaInstallations_error_handling.1 envLinux [] ⟨false, true, []⟩ rfl

/-- C6: in every successful catalog result, the `lts` list contains exactly
the available feature versions that are at most the registry's
`most_recent_lts` marker, and is therefore a subset of `available`. -/
theorem getInstallableVersions_lts_spec (reg : Registry) (processArch : String)
    (e : Env) (base : FsPath) (fs : Fs) (info : JavaVersionsInfo)
    (h : getJavaInstallableVersions reg processArch e base fs = .ok info) :
    (∀ v, v ∈ info.lts ↔ v ∈ info.available ∧ v ≤ reg.avail.most_recent_lts) ∧
    info.lts ⊆ info.available := by
  unfold getJavaInstallableVersions at h
  split at h
  · simp at h
  · split at h
    · simp at h
    · simp only [Except.ok.injEq] at h
      subst h
      constructor
      · intro v
        simp [List.mem_filter]
      · intro v hv
        exact (List.mem_filter.mp hv).1

/-- Registry and catalog result of the C6 scenario
(`available = [8, 11, 17, 21]`, `most_recent_lts = 17`). -/
def regScenario : Registry :=
  ⟨⟨true, 200, [8, 11, 17, 21], 17⟩, fun _ => ⟨false, []⟩⟩

/-- Catalog result of the C6 scenario: `lts = [8, 11, 17]`. -/
def infoScenario : JavaVersionsInfo :=
  { available := [8, 11, 17, 21], lts := [8, 11, 17], releases := [],
    installedInfo := [], installed := [] }

/-- Witness for C6 on the scenario registry. -/
theorem getInstallableVersions_lts_witness :
    (∀ v, v ∈ infoScenario.lts ↔
      v ∈ infoScenario.available ∧ v ≤ regScenario.avail.most_recent_lts) ∧
    infoScenario.lts ⊆ infoScenario.available :=
  getInstallableVersions_lts_spec regScenario "x64" envLinux [] ⟨false, true, []⟩
    infoScenario rfl

/-- C8 counterexample: on an `arm` host — a real Node `process.arch` value
with no entry in `ADOPTIUM_ARCH_MAP` — the query fails even though the
"available releases" endpoint succeeded, so "fails exactly when the endpoint
returns a non-success status" does not hold as stated. -/
theorem getInstallableVersions_arm_counterexample :
    (⟨⟨true, 200, [21], 21⟩, fun _ =>
        ⟨true, [⟨"jdk-21.0.3+9", "https://registry/adoptium.tar.gz", "ab", 5⟩]⟩⟩ :
      Registry).avail.ok = true ∧
    getJavaInstallableVersions
        ⟨⟨true, 200, [21], 21⟩, fun _ =>
          ⟨true, [⟨"jdk-21.0.3+9", "https://registry/adoptium.tar.gz", "ab", 5⟩]⟩⟩
        "arm" envLinux [] ⟨false, true, []⟩ =
      .error ("Arch Unsupported: ADOPTIUM_ARCH_MAP[" ++ "arm" ++ "] undefined") :=
  ⟨rfl, rfl⟩

/-- C8 (amended): on a host whose `process.arch` has an Adoptium mapping, the
query fails exactly when the "available releases" endpoint is not `ok`; and a
feature version whose per-version assets endpoint is not `ok` or returns an
empty payload is silently absent from `releases` while the query as a whole
still succeeds. -/
theorem getInstallableVersions_failure_spec (reg : Registry)
    (processArch m : String) (hm : ADOPTIUM_ARCH_MAP processArch = some m)
    (e : Env) (base : FsPath) (fs : Fs) :
    ((∃ msg, getJavaInstallableVersions reg processArch e base fs = .error msg) ↔
      reg.avail.ok = false) ∧
    (∀ info feature,
      getJavaInstallableVersions reg processArch e base fs = .ok info →
      ((reg.assets feature).ok = false ∨ (reg.assets feature).payload = []) →
      feature ∉ info.releases.map (·.featureVersion)) := by
  constructor
  · cases hok : reg.avail.ok
    · constructor
      · intro _
        rfl
      · intro _
        refine ⟨"Adoptium API error: " ++ toString reg.avail.status, ?_⟩
        simp [getJavaInstallableVersions, hm, hok]
    · constructor
      · rintro ⟨msg, hmsg⟩
        simp [getJavaInstallableVersions, hm, hok] at hmsg
      · intro hfalse
        exact Bool.noConfusion hfalse
  · intro info feature h hbad
    simp only [getJavaInstallableVersions, hm] at h
    split at h
    · simp at h
    · simp only [Except.ok.injEq] at h
      subst h
      simp only []
      intro hmem
      rcases List.mem_map.mp hmem with ⟨r, hr, hfv⟩
      rcases List.mem_filterMap.mp hr with ⟨f, _hf, hgf⟩
      split at hgf
      · exact Option.noConfusion hgf
      · rename_i hoknot
        split at hgf
        · exact Option.noConfusion hgf
        · rename_i entry rest hpayload
          simp only [Option.some.injEq] at hgf
          subst hgf
          have hff : f = feature := by simpa using hfv
          subst hff
          rcases hbad with hbadok | hbadpay
          · exact hoknot hbadok
          · rw [hbadpay] at hpayload
            cases hpayload

/-- Witness for C8: on a mapped architecture with the availability endpoint
down, the query fails. -/
theorem getInstallableVersions_failure_witness :
    ∃ msg, getJavaInstallableVersions ⟨⟨false, 503, [], 0⟩, fun _ => ⟨false, []⟩⟩
      "x64" envLinux [] ⟨false, true, []⟩ = .error msg :=
  ((getInstallableVersions_failure_spec ⟨⟨false, 503, [], 0⟩, fun _ => ⟨false, []⟩⟩
    "x64" "x64" rfl envLinux [] ⟨false, true, []⟩).1).mpr rfl

/-- Sample filesystem for C1: a structurally valid `jdk-11` directory whose
executable is missing, so the scan reports it with `isValid = false`. -/
def fsInvalidJdk11 : Fs := ⟨true, true, [.dir "jdk-11" true [.dir "bin" true []]]⟩

/-- C1 (divergence evaluation): with an empty options object the code applies
the defaults `requireSameArch = requireSameOS = requireValid = true`, so
`findJavaVersion(dir, 11, {})` skips the version-11 record with
`isValid = false` and returns `null` — the claim (and the repository's API
documentation, which lists `false` defaults) says the record is returned
regardless of validity.  Passing all three options as `false` does return it,
and `requireValid: true` alone also filters it out. -/
theorem findJavaVersion_empty_options_divergence :
    findJavaVersion envLinux [] fsInvalidJdk11 11 {} = none ∧
    findJavaVersion envLinux [] fsInvalidJdk11 11
        ⟨some false, some false, some false⟩ =
      some { featureVersion := 11, folderName := "jdk-11",
             installPath := ["jdk-11"], binPath := ["jdk-11", "bin"],
             javaExecutable := ["jdk-11", "bin", "java"],
             arch := "x86_64", os := "linux", isValid := false } ∧
    findJavaVersion envLinux [] fsInvalidJdk11 11 ⟨none, none, some true⟩ = none := by
  decide

/-- C10 counterexample: a folder name containing `darwin` is assigned
`os = "windows"` — not `"macos"` — because the scanner tests the substring
`win` (contained in `darwin`) first; consequently, on a Windows host,
`findJavaVersion` with its default `requireSameOS = true` does return such a
record, against the claim that it can never be returned on any host. -/
theorem extractArchAndOS_darwin_counterexample :
    nameIncludes "jdk-17-darwin" "darwin" = true ∧
    (extractArchAndOS envLinux "jdk-17-darwin").2 = "windows" ∧
    findJavaVersion ⟨"x86_64", "windows", true⟩ []
        ⟨true, true, [.dir "jdk-17-darwin" true [.dir "bin" true [.file "java.exe"]]]⟩
        17 {} =
      some { featureVersion := 17, folderName := "jdk-17-darwin",
             installPath := ["jdk-17-darwin"],
             binPath := ["jdk-17-darwin", "bin"],
             javaExecutable := ["jdk-17-darwin", "bin", "java.exe"],
             arch := "x86_64", os := "windows", isValid := true } := by
  decide

/-- C10 (amended): a folder name containing `mac` (and neither `win` nor
`linux`) is assigned `os = "macos"`; a name containing `darwin` is assigned
`os = "windows"` because the `win` substring is tested first; every
environment the `env` module can construct has a platform name in
`{windows, linux, mac}` (android maps to linux), never `"macos"`, and on a
`darwin` host the platform name is `"mac"`; and whenever the OS filter is
enabled (its default), any record returned by `findJavaVersion` has `os`
equal to the platform name — so records assigned `"macos"` by the `mac`
branch can never be returned, and on a macOS host only records carrying no
recognized OS token, which default to the platform name, can pass the
filter. -/
theorem extractArchAndOS_mac_filter_spec :
    (∀ e name, nameIncludes name "mac" = true → nameIncludes name "win" = false →
      nameIncludes name "linux" = false → (extractArchAndOS e name).2 = "macos") ∧
    (∀ e name, nameIncludes name "darwin" = true →
      (extractArchAndOS e name).2 = "windows") ∧
    (∀ processPlatform processArch e,
      mkEnv processPlatform processArch = some e →
      e.platformName ∈ (["windows", "linux", "mac"] : List String) ∧
      e.platformName ≠ "macos") ∧
    (∀ processArch e, mkEnv "darwin" processArch = some e →
      e.platformName = "mac") ∧
    (∀ e base fs v opts j, opts.requireSameOS ≠ some false →
      findJavaVersion e base fs v opts = some j → j.os = e.platformName) := by
  refine ⟨?_, ?_, ?_, ?_, ?_⟩
  · intro e name hmac hwin hlinux
    have hwindows : nameIncludes name "windows" = false := by
      cases hw : nameIncludes name "windows"
      · rfl
      · have hw2 : nameIncludes name "win" = true :=
          nameIncludes_mono ⟨[], ['d', 'o', 'w', 's'], by decide⟩ hw
        rw [hwin] at hw2
        exact Bool.noConfusion hw2
    simp [extractArchAndOS, hwindows, hwin, hlinux, hmac]
  · intro e name hdarwin
    have hwin : nameIncludes name "win" = true :=
      nameIncludes_mono ⟨['d', 'a', 'r'], [], by decide⟩ hdarwin
    simp [extractArchAndOS, hwin]
  · intro processPlatform processArch e h
    cases hos : ADOPTIUM_OS_MAP processPlatform with
    | none =>
      rw [mkEnv, hos] at h
      cases hav : SYSTEM_ARCH_MAP processArch <;> rw [hav] at h <;> simp at h
    | some name =>
      cases hav : SYSTEM_ARCH_MAP processArch with
      | none =>
        rw [mkEnv, hos, hav] at h
        simp at h
      | some arch =>
        rw [mkEnv, hos, hav] at h
        simp only [Option.some.injEq] at h
        subst h
        have hname : name = "windows" ∨ name = "linux" ∨ name = "mac" := by
          simp only [ADOPTIUM_OS_MAP] at hos
          split_ifs at hos <;> simp_all
        rcases hname with h1 | h1 | h1 <;> subst h1 <;> exact ⟨by simp, by simp⟩
  · intro processArch e h
    have hos : ADOPTIUM_OS_MAP "darwin" = some "mac" := by decide
    cases hav : SYSTEM_ARCH_MAP processArch with
    | none =>
      rw [mkEnv, hos, hav] at h
      simp at h
    | some arch =>
      rw [mkEnv, hos, hav] at h
      simp only [Option.some.injEq] at h
      subst h
      rfl
  · intro e base fs v opts j hro h
    have hro' : opts.requireSameOS.getD true = true := by
      cases hOS : opts.requireSameOS with
      | none => rfl
      | some b =>
        cases b with
        | false => exact absurd hOS hro
        | true => rfl
    simp only [findJavaVersion] at h
    have hpj := List.find?_some h
    rw [hro'] at hpj
    simp only [Bool.and_eq_true, Bool.or_eq_true, Bool.not_true,
      decide_eq_true_eq, Bool.false_eq_true, false_or] at hpj
    exact hpj.2

/-- Witness for C10 on the folder name `jdk-17-macos`. -/
theorem extractArchAndOS_mac_filter_witness :
    (extractArchAndOS envLinux "jdk-17-macos").2 = "macos" :=
  extractArchAndOS_mac_filter_spec.1 envLinux "jdk-17-macos"
    (by decide) (by decide) (by decide)
